import Mathlib

/-!
Verification of the status-tracking / resumable-pipeline core of the
sci-phi PDF processing service, shallowly embedded in Lean.

The embedding follows `fastapi_app/database.py`, `fastapi_app/processor.py`,
`fastapi_app/main.py`, `fastapi_app/conversion_service.py`,
`fastapi_app/extraction_service.py` and `fastapi_app/llm/context_utils.py`.

Modelling conventions:
- a SQLite row of the `processed_pdfs` table is a `Record`; the table is a
  `List Record` in rowid order; `TIMESTAMP` values are `Nat` (`none` = NULL);
- external collaborators (hashlib digests, python `hash`, `urllib` URL
  parsing) are bundled in an `Ext` parameter: the development is generic in
  them, exactly as the code is generic in the digest values it stores;
- the filesystem is a partial map from path strings to byte lists
  (`none` = the file does not exist / cannot be read);
- the network and the external conversion / LLM engines are oracles passed
  to the stage runners, one decision per external call the code makes.
-/

namespace SciPhi

/-- External collaborators of the database / processor layer:
`hashUri` is `hashlib.sha256(uri.encode()).hexdigest()`, `shaBytes` is the
sha256 hexdigest of a byte sequence, `pyHash` is python's builtin `hash`,
`urlPath` is `urllib.parse.urlparse(uri).path`. -/
structure Ext where
  hashUri : String → String
  shaBytes : List Nat → String
  pyHash : String → Nat
  urlPath : String → String

/-- The filesystem: path → byte content, `none` when the file is absent or
unreadable. -/
def FS : Type := String → Option (List Nat)

/-- One row of the `processed_pdfs` table (`database.py`, `init_database`).
Column defaults: `is_downloaded` FALSE, `status` 'success', `is_converted`
FALSE, `is_extracted` FALSE, every TIMESTAMP and TEXT column NULL. -/
structure Record where
  id : Nat
  uri : String
  uriHash : String
  contentHash : Option String
  filename : String
  filePath : String
  fileSize : Nat
  contentType : Option String
  isDownloaded : Bool
  processedAt : Nat
  status : String
  errorMessage : Option String
  isConverted : Bool
  conversionStartedAt : Option Nat
  conversionCompletedAt : Option Nat
  conversionError : Option String
  textFilePath : Option String
  imagesFolderPath : Option String
  isExtracted : Bool
  extractionStartedAt : Option Nat
  extractionCompletedAt : Option Nat
  extractionError : Option String
  extractionFilePath : Option String
deriving Repr, DecidableEq

/-- Python truthiness of an optional string (`None` and `""` are falsy). -/
def pyTruthy : Option String → Bool
  | none => false
  | some s => !(s == "")

/-- Lowercase a string, character by character (python `str.lower`). -/
def lowerStr (s : String) : String := ⟨s.data.map Char.toLower⟩

/-- Python `needle in hay` on strings. -/
def strContainsSub (hay needle : String) : Bool :=
  hay.data.tails.any (fun t => needle.data.isPrefixOf t)

/-- Python `s.endswith(suf)`. -/
def strEndsWithL (s suf : String) : Bool := suf.data.isSuffixOf s.data

/-- Split a list into consecutive chunks of at most `n` elements; mirrors
the read loop `iter(lambda: f.read(n), b"")` which stops at the first empty
chunk. -/
def chunksBy {α : Type} (n : Nat) (l : List α) : List (List α) :=
  match l with
  | [] => []
  | x :: xs =>
    if n = 0 then [x :: xs]
    else (x :: xs).take n :: chunksBy n ((x :: xs).drop n)
termination_by l.length
decreasing_by
  simp only [List.length_drop, List.length_cons]
  omega

/-- Rejoining the chunks gives back the original list. -/
theorem chunksBy_join {α : Type} (n : Nat) (l : List α) :
    (chunksBy n l).flatten = l := by
  induction l using chunksBy.induct n with
  | case1 => rw [chunksBy]; rfl
  | case2 x xs hn => rw [chunksBy]; simp [hn]
  | case3 x xs hn ih =>
    rw [chunksBy]
    simp [hn, ih, List.take_append_drop]

/-- `database.hash_file_content`: stream the file in 4096-byte chunks into
a sha256 object (the object accumulates the concatenation of the chunks
fed to `update`), return the hexdigest; return `None` instead of raising
when the file cannot be read. -/
def hash_file_content (ext : Ext) (fs : FS) (path : String) : Option String :=
  match fs path with
  | none => none
  | some content => some (ext.shaBytes ((chunksBy 4096 content).flatten))

/-- `database.get_processed_pdf`: first row whose `uri` column matches. -/
def get_processed_pdf (db : List Record) (uri : String) : Option Record :=
  db.find? (fun r => r.uri == uri)

/-- `database.check_uri_exists`: first row with matching `uri_hash` that is
downloaded with status 'success'. -/
def check_uri_exists (ext : Ext) (db : List Record) (uri : String) : Option Record :=
  db.find? (fun r =>
    r.uriHash == ext.hashUri uri && r.isDownloaded && r.status == "success")

/-- `database.check_content_exists`: first downloaded 'success' row with the
given `content_hash`. -/
def check_content_exists (db : List Record) (h : String) : Option Record :=
  db.find? (fun r =>
    r.contentHash == some h && r.isDownloaded && r.status == "success")

/-- The fresh row inserted by `database.store_processed_pdf`: only the
download columns are supplied; every conversion and extraction column takes
its table default.  `content_hash` is computed only when the file was
downloaded successfully and exists on disk. -/
def freshRecord (ext : Ext) (fs : FS) (newId : Nat) (uri filename filePath : String)
    (fileSize : Nat) (contentType : Option String) (isDownloaded : Bool)
    (status : String) (errorMessage : Option String) (now : Nat) : Record :=
  { id := newId
    uri := uri
    uriHash := ext.hashUri uri
    contentHash :=
      if isDownloaded && status == "success" && (fs filePath).isSome then
        hash_file_content ext fs filePath
      else none
    filename := filename
    filePath := filePath
    fileSize := fileSize
    contentType := contentType
    isDownloaded := isDownloaded
    processedAt := now
    status := status
    errorMessage := errorMessage
    isConverted := false
    conversionStartedAt := none
    conversionCompletedAt := none
    conversionError := none
    textFilePath := none
    imagesFolderPath := none
    isExtracted := false
    extractionStartedAt := none
    extractionCompletedAt := none
    extractionError := none
    extractionFilePath := none }

/-- `database.store_processed_pdf`: `INSERT OR REPLACE` keyed on the unique
`uri` column — any existing row for the same uri is deleted and the fresh
row (with a fresh rowid) is inserted. -/
def store_processed_pdf (ext : Ext) (fs : FS) (newId : Nat)
    (uri filename filePath : String) (fileSize : Nat) (contentType : Option String)
    (isDownloaded : Bool) (status : String) (errorMessage : Option String)
    (now : Nat) (db : List Record) : List Record :=
  db.filter (fun r => !(r.uri == uri)) ++
    [freshRecord ext fs newId uri filename filePath fileSize contentType
      isDownloaded status errorMessage now]

/-- Row-level effect of `database.update_conversion_status`.  Note that the
branch conditions test the *parameters* `conversion_started` / `is_converted`
of the call, not the stored flags of the row. -/
def update_conversion_row (isConverted conversionStarted : Bool)
    (conversionError : Option String) (textFilePath imagesFolderPath : Option String)
    (now : Nat) (r : Record) : Record :=
  if conversionStarted && !isConverted then
    { r with conversionStartedAt := some now, conversionError := none }
  else if isConverted then
    { r with isConverted := true, conversionCompletedAt := some now,
             textFilePath := textFilePath, imagesFolderPath := imagesFolderPath,
             conversionError := none }
  else if pyTruthy conversionError then
    { r with conversionError := conversionError }
  else r

/-- `database.update_conversion_status`: apply the row update to the rows
matching `uri` (the uri column is unique, so at most one). -/
def update_conversion_status (uri : String) (isConverted conversionStarted : Bool)
    (conversionError : Option String) (textFilePath imagesFolderPath : Option String)
    (now : Nat) (db : List Record) : List Record :=
  db.map (fun r =>
    if r.uri == uri then
      update_conversion_row isConverted conversionStarted conversionError
        textFilePath imagesFolderPath now r
    else r)

/-- Row-level effect of `database.update_extraction_status`. -/
def update_extraction_row (isExtracted extractionStarted : Bool)
    (extractionError : Option String) (extractionFilePath : Option String)
    (now : Nat) (r : Record) : Record :=
  if extractionStarted && !isExtracted then
    { r with extractionStartedAt := some now, extractionError := none }
  else if isExtracted then
    { r with isExtracted := true, extractionCompletedAt := some now,
             extractionFilePath := extractionFilePath, extractionError := none }
  else if pyTruthy extractionError then
    { r with extractionError := extractionError }
  else r

/-- `database.update_extraction_status`. -/
def update_extraction_status (uri : String) (isExtracted extractionStarted : Bool)
    (extractionError : Option String) (extractionFilePath : Option String)
    (now : Nat) (db : List Record) : List Record :=
  db.map (fun r =>
    if r.uri == uri then
      update_extraction_row isExtracted extractionStarted extractionError
        extractionFilePath now r
    else r)

/-- The WHERE clause of `reset_interrupted_conversions` (both the SELECT and
the UPDATE use it). -/
def interruptedConv (r : Record) : Bool :=
  r.conversionStartedAt.isSome && r.conversionCompletedAt == none &&
    !r.isConverted && r.isDownloaded && r.status == "success"

/-- Row-level effect of the UPDATE of `reset_interrupted_conversions`. -/
def resetConvRow (r : Record) : Record :=
  if interruptedConv r then
    { r with conversionStartedAt := none,
             conversionError :=
               some "Conversion interrupted by server restart - will retry" }
  else r

/-- `database.reset_interrupted_conversions`: clear the start timestamp of
every interrupted conversion, set the sentinel error string, return how
many rows the SELECT found. -/
def reset_interrupted_conversions (db : List Record) : Nat × List Record :=
  ((db.filter interruptedConv).length, db.map resetConvRow)

/-- The WHERE clause of `reset_interrupted_extractions`. -/
def interruptedExtr (r : Record) : Bool :=
  r.extractionStartedAt.isSome && r.extractionCompletedAt == none &&
    !r.isExtracted && r.isConverted

/-- Row-level effect of the UPDATE of `reset_interrupted_extractions`. -/
def resetExtrRow (r : Record) : Record :=
  if interruptedExtr r then
    { r with extractionStartedAt := none,
             extractionError :=
               some "Extraction interrupted by server restart - will retry" }
  else r

/-- `database.reset_interrupted_extractions`. -/
def reset_interrupted_extractions (db : List Record) : Nat × List Record :=
  ((db.filter interruptedExtr).length, db.map resetExtrRow)

/-- `database.get_pdfs_for_conversion`: downloaded 'success' rows not yet
converted, ordered by `processed_at` ascending. -/
def get_pdfs_for_conversion (db : List Record) : List Record :=
  List.insertionSort (fun a b => a.processedAt ≤ b.processedAt)
    (db.filter (fun r => r.isDownloaded && r.status == "success" && !r.isConverted))

/-- `database.get_pdfs_for_extraction`: converted rows not yet extracted,
ordered by `conversion_completed_at` ascending. -/
def get_pdfs_for_extraction (db : List Record) : List Record :=
  List.insertionSort
    (fun a b => a.conversionCompletedAt.getD 0 ≤ b.conversionCompletedAt.getD 0)
    (db.filter (fun r =>
      r.isDownloaded && r.status == "success" && r.isConverted && !r.isExtracted))

/-! Path helpers (`config.py`).  `BASE_DIR` is modelled by the fixed
absolute prefix `/base`; `DATA_DIR` is `/base/data`. -/

/-- `pathlib.Path(filename).stem` (drop the last extension). -/
def stemStr (s : String) : String :=
  if s.data.contains '.' then
    ⟨((s.data.reverse.dropWhile (fun c => !(c == '.'))).drop 1).reverse⟩
  else s

/-- `config.get_pdf_file_path`. -/
def get_pdf_file_path (filename : String) : String := "/base/data/" ++ filename

/-- `config.get_pdf_conversion_folder`. -/
def get_pdf_conversion_folder (filename : String) : String :=
  "/base/data/" ++ stemStr filename

/-- `config.get_pdf_text_file_path`. -/
def get_pdf_text_file_path (filename : String) : String :=
  get_pdf_conversion_folder filename ++ "/" ++ stemStr filename ++ ".txt"

/-- `config.get_pdf_images_folder_path`. -/
def get_pdf_images_folder_path (filename : String) : String :=
  get_pdf_conversion_folder filename ++ "/images"

/-- A path is absolute when it starts with `/`. -/
def isAbsolutePath (p : String) : Bool := p.data.head? == some '/'

/-- `config.resolve_file_path`: absolute paths pass through, relative paths
are resolved against `BASE_DIR`. -/
def resolve_file_path (p : String) : String :=
  if isAbsolutePath p then p else "/base/" ++ p

/-- `config.make_path_relative`: strip the `BASE_DIR` prefix when the path
lies under it, otherwise keep the path as given. -/
def make_path_relative (p : String) : String :=
  if isAbsolutePath p then
    if "/base/".data.isPrefixOf p.data then ⟨p.data.drop 6⟩ else p
  else p

/-- Outcome dict returned by a stage runner (`convert_pdf_async` /
`extract_pdf_async`): the `success` flag, the `uri`, and the `error` entry
present exactly on failure. -/
structure StageResult where
  success : Bool
  uri : String
  errorMsg : Option String
deriving Repr, DecidableEq

/-- External collaborators of `conversion_service.convert_pdf_async`: the
filesystem and the conversion engine (`converter.convert_pdf`), whose
success is an oracle keyed by the pdf path. -/
structure ConvEnv where
  fs : FS
  convertOk : String → Bool

/-- The error string `f"Error converting PDF {uri}: {e}"`. -/
def conv_error_msg (uri e : String) : String :=
  "Error converting PDF " ++ uri ++ ": " ++ e

/-- `conversion_service.convert_pdf_async`: mark started, look the row up,
check the pdf file, run the engine, then either mark completed with the
relative output paths or record the error string; every exception is caught
and turned into a failure result. -/
def convert_pdf_async (env : ConvEnv) (now : Nat) (db : List Record)
    (uri : String) : StageResult × List Record :=
  let db1 := update_conversion_status uri false true none none none now db
  let fail := fun (e : String) =>
    ({ success := false, uri := uri, errorMsg := some (conv_error_msg uri e) },
     update_conversion_status uri false false (some (conv_error_msg uri e))
       none none now db1)
  match get_processed_pdf db1 uri with
  | none => fail ("PDF not found in database: " ++ uri)
  | some info =>
    let pdfPath := resolve_file_path info.filePath
    if (env.fs pdfPath).isNone then fail ("PDF file not found: " ++ pdfPath)
    else if !(env.convertOk pdfPath) then fail "conversion engine error"
    else
      ({ success := true, uri := uri, errorMsg := none },
       update_conversion_status uri true false none
         (some (make_path_relative (get_pdf_text_file_path info.filename)))
         (some (make_path_relative (get_pdf_images_folder_path info.filename)))
         now db1)

/-- `conversion_service.process_conversion_queue`: fetch the pending rows
once, then run `convert_pdf_async` on each serially, collecting one outcome
per row. -/
def process_conversion_queue (env : ConvEnv) (now : Nat) (db : List Record) :
    List StageResult × List Record :=
  (get_pdfs_for_conversion db).foldl
    (fun acc info =>
      let step := convert_pdf_async env now acc.2 info.uri
      (acc.1 ++ [step.1], step.2))
    ([], db)

/-- External collaborators of `extraction_service.extract_pdf_async`: the
filesystem and the LLM extraction engine, whose success is an oracle keyed
by uri. -/
structure ExtrEnv where
  fs : FS
  llmOk : String → Bool

/-- The error string `f"Error extracting from PDF {uri}: {e}"`. -/
def extr_error_msg (uri e : String) : String :=
  "Error extracting from PDF " ++ uri ++ ": " ++ e

/-- `extraction_service.extract_pdf_async`: mark extraction started
*before* any check, then look the row up, require `is_converted`, resolve
the stored text/images paths (a NULL path raises inside the try block),
require the text file, run the LLM engine, and either mark extracted or
record the error string; every exception is caught and turned into a
failure result. -/
def extract_pdf_async (env : ExtrEnv) (now : Nat) (db : List Record)
    (uri : String) : StageResult × List Record :=
  let db1 := update_extraction_status uri false true none none now db
  let fail := fun (e : String) =>
    ({ success := false, uri := uri, errorMsg := some (extr_error_msg uri e) },
     update_extraction_status uri false false (some (extr_error_msg uri e))
       none now db1)
  match get_processed_pdf db1 uri with
  | none => fail ("PDF not found in database: " ++ uri)
  | some info =>
    if !info.isConverted then fail ("PDF must be converted before extraction: " ++ uri)
    else
      match info.textFilePath, info.imagesFolderPath with
      | none, _ => fail "TypeError: expected str, not NoneType"
      | some _, none => fail "TypeError: expected str, not NoneType"
      | some tp, some _ =>
        if (env.fs (resolve_file_path tp)).isNone then
          fail ("Text file not found for extraction: " ++ resolve_file_path tp)
        else if !(env.llmOk uri) then fail "LLM extraction error"
        else
          ({ success := true, uri := uri, errorMsg := none },
           update_extraction_status uri true false none
             (some (make_path_relative
               (get_pdf_conversion_folder info.filename ++
                 "/extraction/extracted_data.json")))
             now db1)

/-- One invocation of `extract_pdf_async` in a sequence of operations. -/
structure ExtrStep where
  env : ExtrEnv
  now : Nat
  uri : String

/-- Run a sequence of `extract_pdf_async` calls against the store. -/
def runExtractions (steps : List ExtrStep) (db : List Record) : List Record :=
  steps.foldl (fun d s => (extract_pdf_async s.env s.now d s.uri).2) db

/-! The processor (`processor.py`) and the submission endpoint
(`main.process_pdf_endpoint`). -/

/-- The network: the HEAD request yields a content-type header (or a
`requests` exception detail), the GET request yields the body bytes (or an
exception detail), each keyed by uri. -/
structure Net where
  headContentType : String → Except String String
  getBytes : String → Except String (List Nat)

/-- The JSON response of `process_pdf` / the submission endpoint, restricted
to the fields the claims are about. -/
structure PdfResponse where
  uri : String
  isPdf : Bool
  downloaded : Bool
  fromCache : Bool
  skipped : Bool
  contentDuplicate : Bool
  filePath : Option String
  fileSize : Nat
  message : String
deriving Repr, DecidableEq

/-- Result of a submission: the response (or the raised `HTTPException`
detail), the table, the filesystem, and the log of external effects
(`HEAD`/`GET` requests performed, background conversions scheduled). -/
structure ProcOut where
  resp : Except String PdfResponse
  db : List Record
  fs : FS
  events : List String

/-- Writing a file: the path now maps to the new content. -/
def writeFile (fs : FS) (p : String) (content : List Nat) : FS :=
  fun q => if q == p then some content else fs q

/-- The cached-result response of `process_pdf` (`from_cache: True`). -/
def cachedResponse (uri : String) (r : Record) : PdfResponse :=
  { uri := uri, isPdf := true, downloaded := true, fromCache := true,
    skipped := false, contentDuplicate := false,
    filePath := some (resolve_file_path r.filePath),
    fileSize := r.fileSize, message := "PDF already processed and available" }

/-- `os.path.basename`: the part after the last `/`. -/
def basenameStr (p : String) : String :=
  ⟨(p.data.reverse.takeWhile (fun c => !(c == '/'))).reverse⟩

/-- `processor.process_pdf`: return the cached record when the uri was
already downloaded successfully and the stored file still exists; otherwise
HEAD the uri, reject non-pdf resources (storing a failed row), download the
body, write the file, and store the success row (replacing any previous row
for the uri).  Network failures store a failed row and raise. -/
def process_pdf (ext : Ext) (net : Net) (fs : FS) (now newId : Nat)
    (db : List Record) (uri : String) : ProcOut :=
  let cachedRow :=
    match get_processed_pdf db uri with
    | some r =>
      if r.isDownloaded && r.status == "success" &&
          (fs (resolve_file_path r.filePath)).isSome then some r
      else none
    | none => none
  match cachedRow with
  | some r => { resp := .ok (cachedResponse uri r), db := db, fs := fs, events := [] }
  | none =>
    match net.headContentType uri with
    | .error e =>
      { resp := .error ("Error accessing URL: " ++ e)
        db := store_processed_pdf ext fs newId uri "" "" 0 none false "error"
                (some ("Error accessing URL: " ++ e)) now db
        fs := fs
        events := ["HEAD " ++ uri] }
    | .ok ctRaw =>
      let ct := lowerStr ctRaw
      let isPdf := strContainsSub ct "application/pdf" ||
                   strEndsWithL (lowerStr (ext.urlPath uri)) ".pdf"
      if !isPdf then
        { resp := .ok { uri := uri, isPdf := false, downloaded := false,
                        fromCache := false, skipped := false,
                        contentDuplicate := false, filePath := none, fileSize := 0,
                        message := "The URL does not point to a PDF resource" }
          db := store_processed_pdf ext fs newId uri "" "" 0 (some ct) false "error"
                  (some "URL does not point to a PDF resource") now db
          fs := fs
          events := ["HEAD " ++ uri] }
      else
        let filename0 := basenameStr (ext.urlPath uri)
        let filename :=
          if filename0 == "" || !(strEndsWithL filename0 ".pdf") then
            "pdf_" ++ toString (ext.pyHash uri % 10000) ++ ".pdf"
          else filename0
        let filePath := get_pdf_file_path filename
        match net.getBytes uri with
        | .error e =>
          { resp := .error ("Error accessing URL: " ++ e)
            db := store_processed_pdf ext fs newId uri "" "" 0 none false "error"
                    (some ("Error accessing URL: " ++ e)) now db
            fs := fs
            events := ["HEAD " ++ uri, "GET " ++ uri] }
        | .ok content =>
          let fsW := writeFile (writeFile fs filePath content)
                       (make_path_relative filePath) content
          { resp := .ok { uri := uri, isPdf := true, downloaded := true,
                          fromCache := false, skipped := false,
                          contentDuplicate := false, filePath := some filePath,
                          fileSize := content.length,
                          message := "PDF successfully downloaded and queued for conversion" }
            db := store_processed_pdf ext fsW newId uri filename
                    (make_path_relative filePath) content.length (some ct) true
                    "success" none now db
            fs := fsW
            events := ["HEAD " ++ uri, "GET " ++ uri] }

/-- `main.process_pdf_endpoint`: short-circuit on `check_uri_exists`
(`skipped: True`, nothing touched); otherwise run `process_pdf`, then on a
successful download check for duplicate content and either flag it or
schedule the background conversion. -/
def process_pdf_endpoint (ext : Ext) (net : Net) (fs : FS) (now newId : Nat)
    (db : List Record) (uri : String) : ProcOut :=
  match check_uri_exists ext db uri with
  | some r =>
    { resp := .ok { uri := uri, isPdf := true, downloaded := true,
                    fromCache := false, skipped := true, contentDuplicate := false,
                    filePath := some r.filePath, fileSize := r.fileSize,
                    message := "PDF with this URI already exists" }
      db := db, fs := fs, events := [] }
  | none =>
    let out := process_pdf ext net fs now newId db uri
    match out.resp with
    | .error _ => out
    | .ok resp =>
      if resp.downloaded && resp.isPdf && resp.filePath.isSome then
        match hash_file_content ext out.fs (resp.filePath.getD "") with
        | some h =>
          match check_content_exists out.db h with
          | some _ =>
            let resp2 := { resp with
              contentDuplicate := true
              message := "PDF content already exists with different URI" }
            { out with resp := .ok resp2 }
          | none => { out with events := out.events ++ ["CONVERT " ++ uri] }
        | none => { out with events := out.events ++ ["CONVERT " ++ uri] }
      else out

/-! Context-window utilities (`llm/context_utils.py`). -/

/-- `context_utils.MODEL_CONTEXT_LIMITS` / `get_context_limit`. -/
def get_context_limit (model : String) : Nat :=
  if model == "granite3.2:8b" then 131072
  else if model == "phi4:14b" then 16384
  else if model == "deepseek-r1:14b" then 131072
  else if model == "llama3-chatqa:8b" then 8192
  else if model == "qwen3:14b" then 40960
  else 8000

/-- `context_utils.estimate_tokens`: the tiktoken encoder is an external
collaborator.  `enc = some e` models the try branch — a working
`tiktoken.encoding_for_model("gpt-3.5-turbo")` encoder, returning
`len(encoding.encode(text))` — and `enc = none` models the except branch,
the function's own documented fallback approximation of 1 token ≈ 4
characters (`len(text) // 4`). -/
def estimate_tokens (enc : Option (String → Nat)) (text : String)
    (_model : String) : Nat :=
  match enc with
  | some e => e text
  | none => text.data.length / 4

/-- The binary-search loop of `truncate_text`: find the longest prefix of
`text` whose estimated token count fits `maxTokens`, starting from the
rough initial guess `best`. -/
def truncLoop (enc : Option (String → Nat)) (model : String) (text : List Char)
    (maxTokens left right : Nat) (best : List Char) : List Char :=
  if left < right then
    let mid := (left + right + 1) / 2
    let candidate := text.take mid
    if estimate_tokens enc ⟨candidate⟩ model ≤ maxTokens then
      truncLoop enc model text maxTokens mid right candidate
    else truncLoop enc model text maxTokens left (mid - 1) best
  else best
termination_by right - left
decreasing_by
  · omega
  · omega

/-- `context_utils.truncate_text`. -/
def truncate_text (enc : Option (String → Nat)) (text : String) (model : String)
    (reserveTokens : Nat) : String :=
  let maxTokens := get_context_limit model - reserveTokens
  if estimate_tokens enc text model ≤ maxTokens then text
  else ⟨truncLoop enc model text.data maxTokens 0 text.data.length
    (text.data.take (maxTokens * 4))⟩

/-- Modelled from the spec: langchain's `RecursiveCharacterTextSplitter` is
an external collaborator (not part of this repository); per the spec the
"chunk" strategy performs splitting into pieces that fit the character
budget, hard-splitting at the empty separator as a last resort.  The model
keeps that guarantee: consecutive pieces of at most `chunkSize` characters
covering the text in order. -/
def split_text_model (chunkSize : Nat) (text : List Char) : List (List Char) :=
  chunksBy chunkSize text

/-- `context_utils.chunk_text_intelligently`: split, then validate every
chunk against the token limit, truncating the ones that still exceed it. -/
def chunk_text_intelligently (enc : Option (String → Nat)) (text : String)
    (model : String) : List String :=
  let maxTokens := get_context_limit model - 1000
  let maxChars := maxTokens * 4
  (split_text_model maxChars text.data).map (fun c =>
    if estimate_tokens enc ⟨c⟩ model ≤ maxTokens then (⟨c⟩ : String)
    else truncate_text enc ⟨c⟩ model 1000)

/-- Python `str.strip()`. -/
def trimStr (s : String) : String :=
  ⟨((s.data.dropWhile (fun c => c.isWhitespace)).reverse.dropWhile
      (fun c => c.isWhitespace)).reverse⟩

/-- Python `s.startswith(pre)`. -/
def strStartsWith (s pre : String) : Bool := pre.data.isPrefixOf s.data

/-- Python `str.isupper()`: at least one cased character and none lowercase
(alphabetic characters model cased characters). -/
def isUpperPy (s : String) : Bool :=
  s.data.any (fun c => c.isAlpha) && s.data.all (fun c => !c.isLower)

/-- `str.split('\n')`. -/
def splitOnNl : List Char → List (List Char)
  | [] => [[]]
  | c :: rest =>
    let r := splitOnNl rest
    if c == '\n' then [] :: r
    else
      match r with
      | [] => [[c]]
      | h :: t => (c :: h) :: t

/-- The `section_priorities` dict of `extract_key_sections`, in insertion
order. -/
def section_priorities : List (String × Nat) :=
  [("abstract", 10), ("introduction", 8), ("conclusion", 9), ("conclusions", 9),
   ("discussion", 7), ("methodology", 6), ("method", 6), ("methods", 6),
   ("results", 7), ("related work", 5), ("literature review", 5),
   ("background", 4), ("references", 1), ("bibliography", 1),
   ("acknowledgments", 1)]

/-- A section accumulated by `extract_key_sections`. -/
structure Section where
  title : String
  content : String
  priority : Nat
deriving Repr, DecidableEq

/-- The header test of `extract_key_sections`: the first matching entry of
`section_priorities` wins. -/
def headerMatch (line : String) : Option Nat :=
  let lineLower := trimStr (lowerStr line)
  section_priorities.findSome? (fun p =>
    if strStartsWith lineLower p.1 ||
        (line.data.length < 100 && strContainsSub lineLower p.1 &&
          (isUpperPy line || strEndsWithL line ":")) then some p.2
    else none)

/-- The line loop of `extract_key_sections`: split the text into titled
sections at header lines. -/
def collectSections : List String → Section → List Section → List Section
  | [], cur, secs => if !(trimStr cur.content == "") then secs ++ [cur] else secs
  | line :: rest, cur, secs =>
    match headerMatch line with
    | some pr =>
      let secs2 := if !(trimStr cur.content == "") then secs ++ [cur] else secs
      collectSections rest ⟨trimStr line, "", pr⟩ secs2
    | none =>
      collectSections rest { cur with content := cur.content ++ line ++ "\n" } secs

/-- The accumulation loop of `extract_key_sections`: add whole sections
while they fit, then at most one truncated section, then stop. -/
def buildCondensed (enc : Option (String → Nat)) (model : String) (maxTokens : Nat) :
    List Section → String → String
  | [], condensed => condensed
  | s :: rest, condensed =>
    let sectionText := "\n\n" ++ s.title ++ "\n" ++ s.content
    if estimate_tokens enc (condensed ++ sectionText) model ≤ maxTokens then
      buildCondensed enc model maxTokens rest (condensed ++ sectionText)
    else
      if 100 < maxTokens - estimate_tokens enc condensed model then
        condensed ++
          (truncate_text enc sectionText model (estimate_tokens enc condensed model))
      else condensed

/-- `context_utils.extract_key_sections`. -/
def extract_key_sections (enc : Option (String → Nat)) (text : String)
    (model : String) : String :=
  let sections := collectSections ((splitOnNl text.data).map (fun l => (⟨l⟩ : String)))
    ⟨"Introduction", "", 8⟩ []
  let sorted := List.insertionSort (fun a b => b.priority ≤ a.priority) sections
  trimStr (buildCondensed enc model (get_context_limit model - 1000) sorted "")

/-- `context_utils.summarize_and_chunk`: dispatch on the strategy; an
unknown strategy raises `ValueError`. -/
def summarize_and_chunk (enc : Option (String → Nat)) (text : String)
    (model : String) (strategy : String) : Except String (List String) :=
  if strategy == "truncate" then .ok [truncate_text enc text model 500]
  else if strategy == "chunk" then .ok (chunk_text_intelligently enc text model)
  else if strategy == "extract_key" then .ok [extract_key_sections enc text model]
  else if strategy == "intelligent" then
    let condensed := extract_key_sections enc text model
    if get_context_limit model - 1000 < estimate_tokens enc condensed model then
      .ok (chunk_text_intelligently enc condensed model)
    else .ok [condensed]
  else .error ("Unknown strategy: " ++ strategy)

/-- Reachability of a single row (for the unique uri it belongs to) under
the operations of the download/conversion bookkeeping: a fresh
`store_processed_pdf` row — `INSERT OR REPLACE` rebuilds the whole row — or
any `update_conversion_status` call applied to a reachable row. -/
inductive ConvReach : Record → Prop where
  | store (ext : Ext) (fs : FS) (newId : Nat) (uri filename filePath : String)
      (fileSize : Nat) (contentType : Option String) (isDownloaded : Bool)
      (status : String) (errorMessage : Option String) (now : Nat) :
      ConvReach (freshRecord ext fs newId uri filename filePath fileSize
        contentType isDownloaded status errorMessage now)
  | update (isConverted conversionStarted : Bool) (conversionError : Option String)
      (textFilePath imagesFolderPath : Option String) (now : Nat) (r : Record) :
      ConvReach r →
      ConvReach (update_conversion_row isConverted conversionStarted
        conversionError textFilePath imagesFolderPath now r)

/-! Concrete fixtures used by counterexamples and witnesses. -/

/-- External collaborators with trivial concrete hashes: the uri digest is
the uri itself, byte digests are a constant, python `hash` is 0, and the
URL path of a locator is the locator itself. -/
def ext0 : Ext :=
  { hashUri := fun s => s, shaBytes := fun _ => "digest",
    pyHash := fun _ => 0, urlPath := fun s => s }

/-- An empty filesystem. -/
def fsEmpty : FS := fun _ => none

/-- A filesystem holding exactly the stored pdf of `baseRecord`. -/
def fsF : FS := fun p => if p == "/base/data/f.pdf" then some [1, 2, 3] else none

/-- A successfully downloaded, not yet converted row for uri `u`. -/
def baseRecord : Record :=
  { id := 1, uri := "u", uriHash := "u", contentHash := none,
    filename := "f.pdf", filePath := "data/f.pdf", fileSize := 3,
    contentType := none, isDownloaded := true, processedAt := 0,
    status := "success", errorMessage := none,
    isConverted := false, conversionStartedAt := none,
    conversionCompletedAt := none, conversionError := none,
    textFilePath := none, imagesFolderPath := none,
    isExtracted := false, extractionStartedAt := none,
    extractionCompletedAt := none, extractionError := none,
    extractionFilePath := none }

/-- A failed-download row for uri `u` (as stored by the error branches of
`process_pdf`). -/
def failRecord : Record :=
  { baseRecord with
    isDownloaded := false, status := "error", filename := "", filePath := "",
    fileSize := 0, errorMessage := some "Error accessing URL: timeout" }

/-- A second pending row, processed after `baseRecord`. -/
def laterRecord : Record :=
  { baseRecord with
    id := 2, uri := "v", uriHash := "v", filename := "g.pdf",
    filePath := "data/g.pdf", processedAt := 1 }

/-- A converted row (completion fields set the way `convert_pdf_async`
sets them). -/
def convertedRecord : Record :=
  { baseRecord with
    isConverted := true, conversionStartedAt := some 0,
    conversionCompletedAt := some 1, textFilePath := some "data/f/f.txt",
    imagesFolderPath := some "data/f/images" }

/-- Extraction environment whose LLM engine always fails, over the empty
filesystem. -/
def envExtrFail : ExtrEnv := { fs := fsEmpty, llmOk := fun _ => false }

/-- Conversion environment whose engine always fails, over the empty
filesystem. -/
def envConvFail : ConvEnv := { fs := fsEmpty, convertOk := fun _ => false }

/-- Network where every uri is a pdf resource with body `[9, 9]`. -/
def netOkPdf : Net :=
  { headContentType := fun _ => .ok "application/pdf",
    getBytes := fun _ => .ok [9, 9] }

/-- Reachable record for C3: a fresh store. -/
def rC3a : Record :=
  freshRecord ext0 fsEmpty 1 "u" "f.pdf" "data/f.pdf" 3 none true "success" none 0

/-- Reachable record for C3: completion update with NULL paths on a row
that was never marked started. -/
def rC3b : Record := update_conversion_row true false none none none 1 rC3a

/-- Reachable record for C3: an error update applied after completion. -/
def rC3c : Record := update_conversion_row false false (some "boom") none none 2 rC3b

/-- A completed-conversion row for the C7 counterexample. -/
def rC7 : Record :=
  { baseRecord with
    isConverted := true, conversionStartedAt := some 0,
    conversionCompletedAt := some 1, textFilePath := some "data/f/f.txt",
    imagesFolderPath := some "data/f/images" }

/-- A row whose conversion was started but never finished. -/
def startedRecord : Record := { baseRecord with conversionStartedAt := some 3 }

/-- Fixture store for the C2 witness: one interrupted row, one untouched
row. -/
def dbC2 : List Record := [startedRecord, baseRecord]

/-- Fixture store for the C6 witness, deliberately listed newest first. -/
def dbC6 : List Record := [laterRecord, baseRecord]

/-- The first outcome of draining the C6 fixture queue against the failing
conversion engine. -/
def resC6 : StageResult :=
  (process_conversion_queue envConvFail 0 dbC6).1.headD ⟨true, "", none⟩

/-- A text of 32004 identical characters (8001 tokens under the fallback
estimate). -/
def bigTextC9 : String := ⟨List.replicate 32004 'a'⟩

/-- A dense external tokenizer: one token per character, the density the
real tiktoken encoder reaches on dense scripts (e.g. CJK text under the
gpt-3.5-turbo encoding). -/
def denseEnc : Option (String → Nat) := some (fun s => s.data.length)

/-- A dense-token text of 8002 characters: 8002 tokens under `denseEnc`,
above the default 8000-token context limit, yet far below the 28000
character chunk budget of that limit. -/
def denseTextC9 : String := ⟨List.replicate 8002 'a'⟩

/-! ## Theorems -/

/-- In `l.zip (l.map f)` the second component of every pair is `f` of the
first. -/
theorem zip_map_pair {α : Type} {f : α → α} {l : List α} {p : α × α}
    (hp : p ∈ l.zip (l.map f)) : p.2 = f p.1 := by
  induction l with
  | nil => simp at hp
  | cons r t ih =>
    simp only [List.map_cons, List.zip_cons_cons, List.mem_cons] at hp
    cases hp with
    | inl h => rw [h]
    | inr h => exact ih h

/-- The interrupted-conversion WHERE clause, spelled out. -/
theorem interruptedConv_iff {r : Record} :
    interruptedConv r = true ↔
      (r.conversionStartedAt.isSome = true ∧ r.conversionCompletedAt = none ∧
        r.isConverted = false ∧ r.isDownloaded = true ∧ r.status = "success") := by
  simp [interruptedConv, and_assoc]

/-- A row outside the started/not-completed/not-converted combination is
untouched by the conversion reset. -/
theorem resetConvRow_of_not_triple {r : Record}
    (h : ¬(r.conversionStartedAt.isSome = true ∧ r.conversionCompletedAt = none ∧
        r.isConverted = false)) : resetConvRow r = r := by
  unfold resetConvRow
  rw [if_neg]
  intro hc
  exact h ⟨(interruptedConv_iff.mp hc).1, (interruptedConv_iff.mp hc).2.1,
    (interruptedConv_iff.mp hc).2.2.1⟩

/-- A row the conversion reset matches genuinely changes. -/
theorem resetConvRow_ne {r : Record} (h : interruptedConv r = true) :
    resetConvRow r ≠ r := by
  unfold resetConvRow
  rw [if_pos h]
  intro heq
  have h1 : r.conversionStartedAt.isSome = true := (interruptedConv_iff.mp h).1
  have h2 := congrArg Record.conversionStartedAt heq
  simp only at h2
  rw [← h2] at h1
  simp at h1

/-- The count returned by the conversion reset equals the number of rows it
changed. -/
theorem resetConv_count (db : List Record) :
    (db.filter interruptedConv).length =
      ((db.zip (db.map resetConvRow)).filter (fun p => !(p.2 == p.1))).length := by
  induction db with
  | nil => rfl
  | cons r t ih =>
    simp only [List.map_cons, List.zip_cons_cons, List.filter_cons]
    by_cases hc : interruptedConv r = true
    · have hne := resetConvRow_ne hc
      have hb : (!(resetConvRow r == r)) = true := by simp [hne]
      simp [hc, hb, ih]
    · have heq : resetConvRow r = r := by unfold resetConvRow; rw [if_neg hc]
      have hb : (!(resetConvRow r == r)) = false := by simp [heq]
      simp [hc, hb, ih]

/-- The interrupted-extraction WHERE clause, spelled out. -/
theorem interruptedExtr_iff {r : Record} :
    interruptedExtr r = true ↔
      (r.extractionStartedAt.isSome = true ∧ r.extractionCompletedAt = none ∧
        r.isExtracted = false ∧ r.isConverted = true) := by
  simp [interruptedExtr, and_assoc]

/-- A row outside the started/not-completed/not-extracted combination is
untouched by the extraction reset. -/
theorem resetExtrRow_of_not_triple {r : Record}
    (h : ¬(r.extractionStartedAt.isSome = true ∧ r.extractionCompletedAt = none ∧
        r.isExtracted = false)) : resetExtrRow r = r := by
  unfold resetExtrRow
  rw [if_neg]
  intro hc
  exact h ⟨(interruptedExtr_iff.mp hc).1, (interruptedExtr_iff.mp hc).2.1,
    (interruptedExtr_iff.mp hc).2.2.1⟩

/-- A row the extraction reset matches genuinely changes. -/
theorem resetExtrRow_ne {r : Record} (h : interruptedExtr r = true) :
    resetExtrRow r ≠ r := by
  unfold resetExtrRow
  rw [if_pos h]
  intro heq
  have h1 : r.extractionStartedAt.isSome = true := (interruptedExtr_iff.mp h).1
  have h2 := congrArg Record.extractionStartedAt heq
  simp only at h2
  rw [← h2] at h1
  simp at h1

/-- The count returned by the extraction reset equals the number of rows it
changed. -/
theorem resetExtr_count (db : List Record) :
    (db.filter interruptedExtr).length =
      ((db.zip (db.map resetExtrRow)).filter (fun p => !(p.2 == p.1))).length := by
  induction db with
  | nil => rfl
  | cons r t ih =>
    simp only [List.map_cons, List.zip_cons_cons, List.filter_cons]
    by_cases hc : interruptedExtr r = true
    · have hne := resetExtrRow_ne hc
      have hb : (!(resetExtrRow r == r)) = true := by simp [hne]
      simp [hc, hb, ih]
    · have heq : resetExtrRow r = r := by unfold resetExtrRow; rw [if_neg hc]
      have hb : (!(resetExtrRow r == r)) = false := by simp [heq]
      simp [hc, hb, ih]

/-- C2: `reset_interrupted_conversions` touches only rows with the start
timestamp set, the completion timestamp unset and the completed flag false;
every touched row has its start timestamp cleared and the sentinel error
string set, every other row is unchanged, and the returned value equals the
number of rows affected.  The symmetric statements hold for
`reset_interrupted_extractions`. -/
theorem C2_theorem (db : List Record) :
    (∀ p ∈ db.zip (reset_interrupted_conversions db).2,
      (¬(p.1.conversionStartedAt.isSome = true ∧ p.1.conversionCompletedAt = none ∧
          p.1.isConverted = false) → p.2 = p.1) ∧
      (p.2 ≠ p.1 →
        p.1.conversionStartedAt.isSome = true ∧ p.1.conversionCompletedAt = none ∧
        p.1.isConverted = false ∧
        p.2 = { p.1 with conversionStartedAt := none, conversionError := some "Conversion interrupted by server restart - will retry" })) ∧
    (reset_interrupted_conversions db).1 =
      ((db.zip (reset_interrupted_conversions db).2).filter
        (fun p => !(p.2 == p.1))).length ∧
    (∀ p ∈ db.zip (reset_interrupted_extractions db).2,
      (¬(p.1.extractionStartedAt.isSome = true ∧ p.1.extractionCompletedAt = none ∧
          p.1.isExtracted = false) → p.2 = p.1) ∧
      (p.2 ≠ p.1 →
        p.1.extractionStartedAt.isSome = true ∧ p.1.extractionCompletedAt = none ∧
        p.1.isExtracted = false ∧
        p.2 = { p.1 with extractionStartedAt := none, extractionError := some "Extraction interrupted by server restart - will retry" })) ∧
    (reset_interrupted_extractions db).1 =
      ((db.zip (reset_interrupted_extractions db).2).filter
        (fun p => !(p.2 == p.1))).length := by
  refine ⟨?_, resetConv_count db, ?_, resetExtr_count db⟩
  · intro p hp
    have hpair : p.2 = resetConvRow p.1 := zip_map_pair hp
    constructor
    · intro hno
      rw [hpair]
      exact resetConvRow_of_not_triple hno
    · intro hne
      by_cases hc : interruptedConv p.1 = true
      · have h3 := interruptedConv_iff.mp hc
        refine ⟨h3.1, h3.2.1, h3.2.2.1, ?_⟩
        rw [hpair]
        unfold resetConvRow
        rw [if_pos hc]
      · exact absurd (by rw [hpair]; unfold resetConvRow; rw [if_neg hc]) hne
  · intro p hp
    have hpair : p.2 = resetExtrRow p.1 := zip_map_pair hp
    constructor
    · intro hno
      rw [hpair]
      exact resetExtrRow_of_not_triple hno
    · intro hne
      by_cases hc : interruptedExtr p.1 = true
      · have h3 := interruptedExtr_iff.mp hc
        refine ⟨h3.1, h3.2.1, h3.2.2.1, ?_⟩
        rw [hpair]
        unfold resetExtrRow
        rw [if_pos hc]
      · exact absurd (by rw [hpair]; unfold resetExtrRow; rw [if_neg hc]) hne

/-- C2 (witness): in the fixture store the interrupted row is rewritten to
the reset form. -/
theorem C2_witness :
    ((startedRecord, resetConvRow startedRecord) ∈
      dbC2.zip (reset_interrupted_conversions dbC2).2) ∧
    resetConvRow startedRecord ≠ startedRecord ∧
    (startedRecord.conversionStartedAt.isSome = true ∧
      startedRecord.conversionCompletedAt = none ∧
      startedRecord.isConverted = false ∧
      resetConvRow startedRecord = { startedRecord with conversionStartedAt := none, conversionError := some "Conversion interrupted by server restart - will retry" }) :=
  ⟨by decide, by decide,
   ((C2_theorem dbC2).1 (startedRecord, resetConvRow startedRecord)
     (by decide)).2 (by decide)⟩

/-- C7 (counterexample): `update_conversion_status` with
`conversion_started=True` is *not* a no-op on a record whose conversion is
already completed — the branch guard tests the call's `is_converted`
parameter, not the row's flag, so the start timestamp of the completed row
`rC7` is overwritten. -/
theorem C7_counterexample :
    rC7.isConverted = true ∧
    update_conversion_status "u" false true none none none 9 [rC7] ≠ [rC7] ∧
    (update_conversion_status "u" false true none none none 9 [rC7]).map
      (fun r => r.conversionStartedAt) = [some 9] := by decide

/-- C7 (amended): `update_conversion_status` with `conversion_started=True`
(and the `is_converted` parameter at its default `False`) sets the start
timestamp to now and clears the error field on every row matching the uri,
leaving all other columns unchanged — unconditionally, even when the row's
conversion is already completed; it is not a no-op in that case. -/
theorem C7_theorem (uri : String) (now : Nat) (db : List Record) :
    update_conversion_status uri false true none none none now db =
      db.map (fun r =>
        if r.uri == uri then
          { r with conversionStartedAt := some now, conversionError := none }
        else r) := rfl

/-- C4: for a locator that already has a row, `store_processed_pdf`
replaces that row entirely (`INSERT OR REPLACE` on the unique uri): exactly
one row for the locator remains, it carries the newly supplied download
fields, and every conversion and extraction column is back at its table
default. -/
theorem C4_theorem (ext : Ext) (fs : FS) (newId : Nat)
    (uri filename filePath : String) (fileSize : Nat) (contentType : Option String)
    (isDownloaded : Bool) (status : String) (errorMessage : Option String)
    (now : Nat) (db : List Record) (r0 : Record)
    (_h0 : r0 ∈ db) (_hu : r0.uri = uri) :
    (store_processed_pdf ext fs newId uri filename filePath fileSize contentType
        isDownloaded status errorMessage now db).filter (fun r => r.uri == uri) =
      [freshRecord ext fs newId uri filename filePath fileSize contentType
        isDownloaded status errorMessage now] ∧
    (freshRecord ext fs newId uri filename filePath fileSize contentType
        isDownloaded status errorMessage now).uri = uri ∧
    (freshRecord ext fs newId uri filename filePath fileSize contentType
        isDownloaded status errorMessage now).filename = filename ∧
    (freshRecord ext fs newId uri filename filePath fileSize contentType
        isDownloaded status errorMessage now).filePath = filePath ∧
    (freshRecord ext fs newId uri filename filePath fileSize contentType
        isDownloaded status errorMessage now).fileSize = fileSize ∧
    (freshRecord ext fs newId uri filename filePath fileSize contentType
        isDownloaded status errorMessage now).isDownloaded = isDownloaded ∧
    (freshRecord ext fs newId uri filename filePath fileSize contentType
        isDownloaded status errorMessage now).status = status ∧
    (freshRecord ext fs newId uri filename filePath fileSize contentType
        isDownloaded status errorMessage now).errorMessage = errorMessage ∧
    (freshRecord ext fs newId uri filename filePath fileSize contentType
        isDownloaded status errorMessage now).isConverted = false ∧
    (freshRecord ext fs newId uri filename filePath fileSize contentType
        isDownloaded status errorMessage now).conversionStartedAt = none ∧
    (freshRecord ext fs newId uri filename filePath fileSize contentType
        isDownloaded status errorMessage now).conversionCompletedAt = none ∧
    (freshRecord ext fs newId uri filename filePath fileSize contentType
        isDownloaded status errorMessage now).conversionError = none ∧
    (freshRecord ext fs newId uri filename filePath fileSize contentType
        isDownloaded status errorMessage now).textFilePath = none ∧
    (freshRecord ext fs newId uri filename filePath fileSize contentType
        isDownloaded status errorMessage now).imagesFolderPath = none ∧
    (freshRecord ext fs newId uri filename filePath fileSize contentType
        isDownloaded status errorMessage now).isExtracted = false ∧
    (freshRecord ext fs newId uri filename filePath fileSize contentType
        isDownloaded status errorMessage now).extractionStartedAt = none ∧
    (freshRecord ext fs newId uri filename filePath fileSize contentType
        isDownloaded status errorMessage now).extractionCompletedAt = none ∧
    (freshRecord ext fs newId uri filename filePath fileSize contentType
        isDownloaded status errorMessage now).extractionError = none ∧
    (freshRecord ext fs newId uri filename filePath fileSize contentType
        isDownloaded status errorMessage now).extractionFilePath = none := by
  refine ⟨?_, rfl, rfl, rfl, rfl, rfl, rfl, rfl, rfl, rfl, rfl, rfl, rfl, rfl,
    rfl, rfl, rfl, rfl, rfl⟩
  simp only [store_processed_pdf, List.filter_append, List.filter_filter]
  simp [freshRecord]

/-- C4 (witness): replacing the failed-download row for uri `u`. -/
theorem C4_witness :
    failRecord ∈ [failRecord] ∧
    (store_processed_pdf ext0 fsEmpty 2 "u" "f.pdf" "data/f.pdf" 3 none true
        "success" none 5 [failRecord]).filter (fun r => r.uri == "u") =
      [freshRecord ext0 fsEmpty 2 "u" "f.pdf" "data/f.pdf" 3 none true
        "success" none 5] :=
  ⟨by decide,
   (C4_theorem ext0 fsEmpty 2 "u" "f.pdf" "data/f.pdf" 3 none true "success"
     none 5 [failRecord] failRecord (by decide) (by decide)).1⟩

/-- C3 (counterexample): the claimed equivalence fails on reachable rows.
Storing a fresh row, then calling `update_conversion_status` with
`is_converted=True` and NULL paths, then recording an error, yields a
reachable record with `is_converted` true whose start timestamp is NULL,
whose error is set and whose output paths are NULL. -/
theorem C3_counterexample :
    ConvReach rC3c ∧ rC3c.isConverted = true ∧ rC3c.conversionStartedAt = none ∧
    rC3c.conversionCompletedAt = some 1 ∧ rC3c.conversionError = some "boom" ∧
    rC3c.textFilePath = none ∧ rC3c.imagesFolderPath = none := by
  refine ⟨?_, by decide, by decide, by decide, by decide, by decide, by decide⟩
  exact ConvReach.update _ _ _ _ _ _ _
    (ConvReach.update _ _ _ _ _ _ _
      (ConvReach.store ext0 fsEmpty 1 "u" "f.pdf" "data/f.pdf" 3 none true
        "success" none 0))

/-- C3 (amended): of the claimed four-way equivalence only the completion
timestamp conjunct is an invariant of the store/update operations: on every
reachable record `is_converted` is true exactly when
`conversion_completed_at` is set.  The start-timestamp, error-null and
output-path conjuncts can each be violated on reachable records (see the
counterexample). -/
theorem C3_theorem (r : Record) (h : ConvReach r) :
    r.isConverted = true ↔ r.conversionCompletedAt.isSome = true := by
  induction h with
  | store ext fs newId uri filename filePath fileSize contentType isDownloaded
      status errorMessage now =>
    simp [freshRecord]
  | update isConverted conversionStarted conversionError textFilePath
      imagesFolderPath now r _ ih =>
    unfold update_conversion_row
    split_ifs with h1 h2 h3
    · simpa using ih
    · simp
    · simpa using ih
    · simpa using ih

/-- C3 (witness): the invariant evaluated on a concrete reachable record. -/
theorem C3_witness :
    ConvReach rC3b ∧ (rC3b.isConverted = true ↔ rC3b.conversionCompletedAt.isSome = true) :=
  ⟨ConvReach.update _ _ _ _ _ _ _
    (ConvReach.store ext0 fsEmpty 1 "u" "f.pdf" "data/f.pdf" 3 none true
      "success" none 0),
   C3_theorem rC3b
    (ConvReach.update _ _ _ _ _ _ _
      (ConvReach.store ext0 fsEmpty 1 "u" "f.pdf" "data/f.pdf" 3 none true
        "success" none 0))⟩


/-- Every branch of the extraction row update keeps the row's uri. -/
theorem update_extraction_row_uri (ie es : Bool) (ee efp : Option String)
    (now : Nat) (r : Record) :
    (update_extraction_row ie es ee efp now r).uri = r.uri := by
  unfold update_extraction_row
  split_ifs <;> rfl

/-- `update_extraction_status` keeps the sequence of uris of the table. -/
theorem update_extraction_status_map_uri (uri : String) (ie es : Bool)
    (ee efp : Option String) (now : Nat) (db : List Record) :
    (update_extraction_status uri ie es ee efp now db).map Record.uri =
      db.map Record.uri := by
  unfold update_extraction_status
  induction db with
  | nil => rfl
  | cons r t ih =>
    simp only [List.map_cons, List.map_map] at ih ⊢
    refine congrArg₂ _ ?_ ih
    split_ifs with h
    · exact update_extraction_row_uri _ _ _ _ _ _
    · rfl

/-- Membership in an updated table comes from a row of the original
table. -/
theorem mem_update_extraction_status {uri : String} {ie es : Bool}
    {ee efp : Option String} {now : Nat} {db : List Record} {r : Record}
    (hr : r ∈ update_extraction_status uri ie es ee efp now db) :
    ∃ r0, r0 ∈ db ∧
      r = (if r0.uri == uri then update_extraction_row ie es ee efp now r0 else r0) := by
  unfold update_extraction_status at hr
  obtain ⟨r0, hr0, hval⟩ := List.mem_map.mp hr
  exact ⟨r0, hr0, hval.symm⟩

/-- With the `is_extracted` parameter false, the extraction row update
keeps both the `is_converted` and `is_extracted` flags. -/
theorem update_extraction_row_keeps_flags (es : Bool) (ee efp : Option String)
    (now : Nat) (r : Record) :
    (update_extraction_row false es ee efp now r).isExtracted = r.isExtracted ∧
    (update_extraction_row false es ee efp now r).isConverted = r.isConverted := by
  unfold update_extraction_row
  split_ifs <;> simp_all

/-- The extraction completion row update keeps `is_converted`. -/
theorem update_extraction_row_completed_isConverted (efp : Option String)
    (now : Nat) (r : Record) :
    (update_extraction_row true false none efp now r).isConverted = r.isConverted := by
  unfold update_extraction_row
  split_ifs <;> simp_all

/-- An `update_extraction_status` call with `is_extracted=False` preserves
the gating invariant (not converted → not extracted) on every row. -/
theorem update_extraction_status_inv (uri : String) (es : Bool)
    (ee efp : Option String) (now : Nat) (db : List Record)
    (hinv : ∀ r ∈ db, r.isConverted = false → r.isExtracted = false) :
    ∀ r ∈ update_extraction_status uri false es ee efp now db,
      r.isConverted = false → r.isExtracted = false := by
  intro r hr hc
  obtain ⟨r0, hr0, hval⟩ := mem_update_extraction_status hr
  by_cases h : (r0.uri == uri) = true
  · rw [if_pos h] at hval
    subst hval
    have hk := update_extraction_row_keeps_flags es ee efp now r0
    rw [hk.2] at hc
    rw [hk.1]
    exact hinv r0 hr0 hc
  · rw [if_neg h] at hval
    subst hval
    exact hinv _ hr0 hc

/-- The table produced by `extract_pdf_async` has one of two shapes: on any
failure path, a second `is_extracted=False` update on top of the
started-mark update; on the success path, the completion update on top of
the started-mark update — and the success path requires the looked-up row
to have `is_converted` true. -/
theorem extract_pdf_async_cases (env : ExtrEnv) (now : Nat) (db : List Record)
    (uri : String) :
    (∃ ee efp, (extract_pdf_async env now db uri).2 =
        update_extraction_status uri false false ee efp now
          (update_extraction_status uri false true none none now db)) ∨
    (∃ info efp,
        get_processed_pdf (update_extraction_status uri false true none none now db)
          uri = some info ∧
        info.isConverted = true ∧
        (extract_pdf_async env now db uri).2 =
          update_extraction_status uri true false none efp now
            (update_extraction_status uri false true none none now db)) := by
  cases hfind : get_processed_pdf (update_extraction_status uri false true none
      none now db) uri with
  | none =>
    left
    refine ⟨some (extr_error_msg uri ("PDF not found in database: " ++ uri)),
      none, ?_⟩
    simp only [extract_pdf_async, hfind, Option.isNone_none, Option.isNone_some,
      Bool.not_true, Bool.not_false, Bool.false_eq_true, Bool.true_eq_false, if_true, if_false]
  | some info =>
    cases hconv : info.isConverted with
    | false =>
      left
      refine ⟨some (extr_error_msg uri
        ("PDF must be converted before extraction: " ++ uri)), none, ?_⟩
      simp only [extract_pdf_async, hfind, hconv, Option.isNone_none, Option.isNone_some,
        Bool.not_true, Bool.not_false, Bool.false_eq_true, Bool.true_eq_false, if_true, if_false]
    | true =>
      cases htp : info.textFilePath with
      | none =>
        left
        refine ⟨some (extr_error_msg uri "TypeError: expected str, not NoneType"),
          none, ?_⟩
        simp only [extract_pdf_async, hfind, hconv, htp, Option.isNone_none, Option.isNone_some,
          Bool.not_true, Bool.not_false, Bool.false_eq_true, Bool.true_eq_false, if_true, if_false]
      | some tp =>
        cases hip : info.imagesFolderPath with
        | none =>
          left
          refine ⟨some (extr_error_msg uri "TypeError: expected str, not NoneType"),
            none, ?_⟩
          simp only [extract_pdf_async, hfind, hconv, htp, hip, Option.isNone_none, Option.isNone_some,
            Bool.not_true, Bool.not_false, Bool.false_eq_true, Bool.true_eq_false, if_true, if_false]
        | some ip =>
          cases hfs : env.fs (resolve_file_path tp) with
          | none =>
            left
            refine ⟨some (extr_error_msg uri
              ("Text file not found for extraction: " ++ resolve_file_path tp)),
              none, ?_⟩
            simp only [extract_pdf_async, hfind, hconv, htp, hip, hfs, Option.isNone_none, Option.isNone_some,
              Bool.not_true, Bool.not_false, Bool.false_eq_true, Bool.true_eq_false, if_true, if_false]
          | some bytes =>
            cases hllm : env.llmOk uri with
            | false =>
              left
              refine ⟨some (extr_error_msg uri "LLM extraction error"), none, ?_⟩
              simp only [extract_pdf_async, hfind, hconv, htp, hip, hfs, hllm, Option.isNone_none, Option.isNone_some,
                Bool.not_true, Bool.not_false, Bool.false_eq_true, Bool.true_eq_false, if_true, if_false]
            | true =>
              right
              refine ⟨info, some (make_path_relative
                (get_pdf_conversion_folder info.filename ++
                  "/extraction/extracted_data.json")), rfl, hconv, ?_⟩
              simp only [extract_pdf_async, hfind, hconv, htp, hip, hfs, hllm, Option.isNone_none, Option.isNone_some,
                Bool.not_true, Bool.not_false, Bool.false_eq_true, Bool.true_eq_false, if_true, if_false]

/-- The uris of the table are unchanged by `extract_pdf_async`. -/
theorem extract_pdf_async_map_uri (env : ExtrEnv) (now : Nat) (db : List Record)
    (uri : String) :
    (extract_pdf_async env now db uri).2.map Record.uri = db.map Record.uri := by
  rcases extract_pdf_async_cases env now db uri with ⟨ee, efp, h⟩ | ⟨info, efp, _, _, h⟩ <;>
    rw [h, update_extraction_status_map_uri, update_extraction_status_map_uri]

/-- One `extract_pdf_async` call preserves the gating invariant on a table
with unique uris. -/
theorem extract_pdf_async_inv (env : ExtrEnv) (now : Nat) (db : List Record)
    (uri : String) (hnd : (db.map Record.uri).Nodup)
    (hinv : ∀ r ∈ db, r.isConverted = false → r.isExtracted = false) :
    ∀ r ∈ (extract_pdf_async env now db uri).2,
      r.isConverted = false → r.isExtracted = false := by
  have hinv1 : ∀ r ∈ update_extraction_status uri false true none none now db,
      r.isConverted = false → r.isExtracted = false :=
    update_extraction_status_inv uri true none none now db hinv
  rcases extract_pdf_async_cases env now db uri with
    ⟨ee, efp, h⟩ | ⟨info, efp, hfind, hconv, h⟩
  · rw [h]
    exact update_extraction_status_inv uri false ee efp now _ hinv1
  · rw [h]
    intro r hr hc
    obtain ⟨r0, hr0, hval⟩ := mem_update_extraction_status hr
    by_cases hu : (r0.uri == uri) = true
    · rw [if_pos hu] at hval
      subst hval
      rw [update_extraction_row_completed_isConverted] at hc
      have hnd1 : ((update_extraction_status uri false true none none now db).map
          Record.uri).Nodup := by
        rw [update_extraction_status_map_uri]; exact hnd
      have hmem : info ∈ update_extraction_status uri false true none none now db :=
        List.mem_of_find?_eq_some hfind
      have hp := List.find?_some hfind
      have huri : r0.uri = info.uri := by
        have h1 : r0.uri = uri := by simpa using hu
        have h2 : info.uri = uri := by simpa [get_processed_pdf] using hp
        rw [h1, h2]
      have heq : r0 = info := List.inj_on_of_nodup_map hnd1 hr0 hmem huri
      rw [heq, hconv] at hc
      exact absurd hc (by simp)
    · rw [if_neg hu] at hval
      subst hval
      exact hinv1 _ hr0 hc

/-- C1 (counterexample): running `extract_pdf_async` on an unconverted
record sets its extraction start timestamp even though `is_converted` is
false — the started mark is written before the conversion check. -/
theorem C1_counterexample :
    baseRecord.isConverted = false ∧ baseRecord.extractionStartedAt = none ∧
    ((extract_pdf_async envExtrFail 7 [baseRecord] "u").2.map
      (fun r => (r.extractionStartedAt, r.isConverted, r.isExtracted))) =
      [(some 7, false, false)] := by decide

/-- C1 (amended): `extract_pdf_async` may set `extraction_started_at` on a
record whose conversion is not completed (see the counterexample), but it
never sets `is_extracted` on such a record: over any sequence of
`extract_pdf_async` calls against a store with unique uris, every record
with `is_converted` false still has `is_extracted` false.  (The raw
`update_extraction_status` writer enforces no gate at all when called with
`is_extracted=True` directly.) -/
theorem C1_theorem (steps : List ExtrStep) (db : List Record)
    (hnd : (db.map Record.uri).Nodup)
    (hinv : ∀ r ∈ db, r.isConverted = false → r.isExtracted = false) :
    ∀ r ∈ runExtractions steps db, r.isConverted = false → r.isExtracted = false := by
  induction steps generalizing db with
  | nil => simpa [runExtractions] using hinv
  | cons s rest ih =>
    simp only [runExtractions, List.foldl_cons]
    have hnd2 : ((extract_pdf_async s.env s.now db s.uri).2.map Record.uri).Nodup := by
      rw [extract_pdf_async_map_uri]; exact hnd
    exact ih _ hnd2 (extract_pdf_async_inv s.env s.now db s.uri hnd hinv)

/-- C1 (witness): the amended invariant evaluated after one failing
extraction call on the unconverted fixture record. -/
theorem C1_witness :
    ([baseRecord].map Record.uri).Nodup ∧
    (runExtractions [⟨envExtrFail, 7, "u"⟩] [baseRecord]).map
      (fun r => (r.extractionStartedAt, r.isExtracted)) = [(some 7, false)] ∧
    ∀ r ∈ runExtractions [⟨envExtrFail, 7, "u"⟩] [baseRecord],
      r.isConverted = false → r.isExtracted = false :=
  ⟨by decide, by decide,
   C1_theorem [⟨envExtrFail, 7, "u"⟩] [baseRecord] (by decide) (by decide)⟩

/-- C8: `hash_file_content` streams the file in 4096-byte chunks and its
digest equals hashing the whole content at once; when the file cannot be
read it returns `None` (never a zero or default digest). -/
theorem C8_theorem (ext : Ext) (fs : FS) (path : String) :
    hash_file_content ext fs path = (fs path).map (fun content => ext.shaBytes content) := by
  unfold hash_file_content
  cases h : fs path with
  | none => rfl
  | some c => simp [chunksBy_join]

/-- C5: resubmitting a locator whose record is already successfully
downloaded and whose stored file still exists returns the existing record
with the `from_cache` indication, performs no network call and no store —
the table is unchanged; at the endpoint level the duplicate check
short-circuits (`skipped`), likewise leaving the table untouched. -/
theorem C5_theorem (ext : Ext) (net : Net) (fs : FS) (now newId : Nat)
    (db : List Record) (uri : String) (r : Record)
    (hr : get_processed_pdf db uri = some r)
    (hdl : r.isDownloaded = true) (hst : r.status = "success")
    (hex : (fs (resolve_file_path r.filePath)).isSome = true)
    (hwf : r.uriHash = ext.hashUri uri) :
    (process_pdf ext net fs now newId db uri).resp =
      Except.ok (cachedResponse uri r) ∧
    (process_pdf ext net fs now newId db uri).db = db ∧
    (process_pdf ext net fs now newId db uri).events = [] ∧
    (cachedResponse uri r).fromCache = true ∧
    (check_uri_exists ext db uri).isSome = true ∧
    (process_pdf_endpoint ext net fs now newId db uri).db = db ∧
    (process_pdf_endpoint ext net fs now newId db uri).events = [] := by
  have hred : process_pdf ext net fs now newId db uri =
      { resp := .ok (cachedResponse uri r), db := db, fs := fs, events := [] } := by
    unfold process_pdf
    rw [hr]
    simp [hdl, hst, hex]
  have hsome : (check_uri_exists ext db uri).isSome = true := by
    unfold check_uri_exists
    rw [List.find?_isSome]
    refine ⟨r, List.mem_of_find?_eq_some hr, ?_⟩
    simp [hwf, hdl, hst]
  refine ⟨by rw [hred], by rw [hred], by rw [hred], rfl, hsome, ?_, ?_⟩ <;>
  · unfold process_pdf_endpoint
    cases hcue : check_uri_exists ext db uri with
    | none => rw [hcue] at hsome; simp at hsome
    | some rx => rfl

/-- C5 (witness): resubmitting the fixture locator `u`. -/
theorem C5_witness :
    get_processed_pdf [baseRecord] "u" = some baseRecord ∧
    baseRecord.isDownloaded = true ∧ baseRecord.status = "success" ∧
    (fsF (resolve_file_path baseRecord.filePath)).isSome = true ∧
    (process_pdf ext0 netOkPdf fsF 4 2 [baseRecord] "u").db = [baseRecord] ∧
    (process_pdf ext0 netOkPdf fsF 4 2 [baseRecord] "u").events = [] :=
  ⟨by decide, by decide, by decide, by decide,
   (C5_theorem ext0 netOkPdf fsF 4 2 [baseRecord] "u" baseRecord (by decide)
     (by decide) (by decide) (by decide) (by decide)).2.1,
   (C5_theorem ext0 netOkPdf fsF 4 2 [baseRecord] "u" baseRecord (by decide)
     (by decide) (by decide) (by decide) (by decide)).2.2.1⟩

/-- When the duplicate check misses, the endpoint's table is the
processor's table and its event log only appends to the processor's. -/
theorem process_pdf_endpoint_shape (ext : Ext) (net : Net) (fs : FS)
    (now newId : Nat) (db : List Record) (uri : String)
    (hcue : check_uri_exists ext db uri = none) :
    (process_pdf_endpoint ext net fs now newId db uri).db =
      (process_pdf ext net fs now newId db uri).db ∧
    ∃ extra, (process_pdf_endpoint ext net fs now newId db uri).events =
      (process_pdf ext net fs now newId db uri).events ++ extra := by
  unfold process_pdf_endpoint
  rw [hcue]
  dsimp only
  split
  · exact ⟨rfl, [], by simp⟩
  · split
    · split
      · split
        · exact ⟨rfl, [], by simp⟩
        · exact ⟨rfl, _, rfl⟩
      · exact ⟨rfl, _, rfl⟩
    · exact ⟨rfl, [], by simp⟩

/-- C10: a locator whose existing row records a failed download is not
short-circuited: the duplicate lookup returns nothing (it only matches
downloaded 'success' rows), the submission performs a fresh GET, and the
failure row is replaced by the new success outcome. -/
theorem C10_theorem (ext : Ext) (net : Net) (fs : FS) (now newId : Nat)
    (db : List Record) (uri ct : String) (content : List Nat)
    (hwfAll : ∀ r ∈ db, r.uriHash = ext.hashUri r.uri)
    (hinj : ∀ a b, ext.hashUri a = ext.hashUri b → a = b)
    (hfail : ∀ r ∈ db, r.uri = uri →
      ¬(r.isDownloaded = true ∧ r.status = "success"))
    (hhead : net.headContentType uri = .ok ct)
    (hct : strContainsSub (lowerStr ct) "application/pdf" = true)
    (hget : net.getBytes uri = .ok content) :
    check_uri_exists ext db uri = none ∧
    ("GET " ++ uri) ∈ (process_pdf_endpoint ext net fs now newId db uri).events ∧
    (((process_pdf_endpoint ext net fs now newId db uri).db.filter
        (fun r => r.uri == uri)).map
      (fun r => (r.isDownloaded, r.status, r.fileSize))) =
      [(true, "success", content.length)] := by
  have hcue : check_uri_exists ext db uri = none := by
    unfold check_uri_exists
    rw [List.find?_eq_none]
    intro r hrdb hp
    simp only [Bool.and_eq_true, beq_iff_eq] at hp
    obtain ⟨⟨hh, hd⟩, hs⟩ := hp
    exact hfail r hrdb (hinj _ _ ((hwfAll r hrdb).symm.trans hh)) ⟨hd, hs⟩
  have hdown :
      (process_pdf ext net fs now newId db uri).events =
        ["HEAD " ++ uri, "GET " ++ uri] ∧
      (((process_pdf ext net fs now newId db uri).db.filter
          (fun r => r.uri == uri)).map
        (fun r => (r.isDownloaded, r.status, r.fileSize))) =
        [(true, "success", content.length)] := by
    cases hgp : get_processed_pdf db uri with
    | none =>
      unfold process_pdf
      rw [hgp]
      simp only [hhead, hget, hct, Bool.true_or, Bool.not_true, Bool.false_eq_true,
        if_false]
      constructor
      · trivial
      · simp [store_processed_pdf, List.filter_append, List.filter_filter,
          freshRecord]
    | some r =>
      have hruri : r.uri = uri := by
        have := List.find?_some hgp
        simpa using this
      have hcond : (r.isDownloaded && r.status == "success" &&
          (fs (resolve_file_path r.filePath)).isSome) = false := by
        have hnot := hfail r (List.mem_of_find?_eq_some hgp) hruri
        by_cases hd : r.isDownloaded = true
        · by_cases hs : r.status = "success"
          · exact absurd ⟨hd, hs⟩ hnot
          · simp [hd, hs]
        · simp only [Bool.not_eq_true] at hd
          simp [hd]
      unfold process_pdf
      rw [hgp]
      simp only [hcond, Bool.false_eq_true, if_false, hhead, hget, hct,
        Bool.true_or, Bool.not_true]
      constructor
      · trivial
      · simp [store_processed_pdf, List.filter_append, List.filter_filter,
          freshRecord]
  obtain ⟨hdb, extra, hev⟩ := process_pdf_endpoint_shape ext net fs now newId db uri hcue
  refine ⟨hcue, ?_, ?_⟩
  · rw [hev, hdown.1]
    exact List.mem_append_left _ (by simp)
  · rw [hdb]
    exact hdown.2

/-- C10 (witness): resubmitting the failed fixture locator `u` against the
pdf-serving network. -/
theorem C10_witness :
    (∀ r ∈ [failRecord], r.uri = "u" →
      ¬(r.isDownloaded = true ∧ r.status = "success")) ∧
    check_uri_exists ext0 [failRecord] "u" = none ∧
    ("GET " ++ "u") ∈ (process_pdf_endpoint ext0 netOkPdf fsEmpty 4 2 [failRecord] "u").events ∧
    (((process_pdf_endpoint ext0 netOkPdf fsEmpty 4 2 [failRecord] "u").db.filter
        (fun r => r.uri == "u")).map
      (fun r => (r.isDownloaded, r.status, r.fileSize))) = [(true, "success", 2)] := by
  have h := C10_theorem ext0 netOkPdf fsEmpty 4 2 [failRecord] "u"
    "application/pdf" [9, 9] (by decide) (fun a b hab => hab) (by decide)
    rfl (by decide) rfl
  exact ⟨by decide, h.1, h.2.1, h.2.2⟩

/-- The outcome returned by `convert_pdf_async` carries the uri it was
called with, in every branch. -/
theorem convert_pdf_async_uri (env : ConvEnv) (now : Nat) (db : List Record)
    (uri : String) : (convert_pdf_async env now db uri).1.uri = uri := by
  unfold convert_pdf_async
  dsimp only
  split
  · rfl
  · split_ifs <;> rfl

/-- A failed outcome of `convert_pdf_async` always carries an error
message. -/
theorem convert_pdf_async_error (env : ConvEnv) (now : Nat) (db : List Record)
    (uri : String) (h : (convert_pdf_async env now db uri).1.success = false) :
    (convert_pdf_async env now db uri).1.errorMsg.isSome = true := by
  unfold convert_pdf_async at h ⊢
  dsimp only at h ⊢
  revert h
  split
  · intro _; rfl
  · split_ifs <;> intro h
    · rfl
    · rfl
    · exact absurd h (by simp)

/-- The uris of the outcomes collected by the conversion drain loop are the
accumulator's followed by the pending rows', in order. -/
theorem conversion_foldl_uris (env : ConvEnv) (now : Nat) (l : List Record) :
    ∀ (acc : List StageResult) (db : List Record),
      ((l.foldl (fun acc info =>
          let step := convert_pdf_async env now acc.2 info.uri
          (acc.1 ++ [step.1], step.2)) (acc, db)).1).map (fun res => res.uri) =
        acc.map (fun res => res.uri) ++ l.map Record.uri := by
  induction l with
  | nil => intro acc db; simp
  | cons x t ih =>
    intro acc db
    simp only [List.foldl_cons]
    rw [ih]
    simp [convert_pdf_async_uri]

/-- Every outcome collected by the conversion drain loop with an error-free
accumulator captures its failure, if any, in its error message. -/
theorem conversion_foldl_error (env : ConvEnv) (now : Nat) (l : List Record) :
    ∀ (acc : List StageResult) (db : List Record),
      (∀ res ∈ acc, res.success = false → res.errorMsg.isSome = true) →
      ∀ res ∈ (l.foldl (fun acc info =>
          let step := convert_pdf_async env now acc.2 info.uri
          (acc.1 ++ [step.1], step.2)) (acc, db)).1,
        res.success = false → res.errorMsg.isSome = true := by
  induction l with
  | nil => intro acc db hacc; simpa using hacc
  | cons x t ih =>
    intro acc db hacc
    simp only [List.foldl_cons]
    apply ih
    intro res hres
    rcases List.mem_append.mp hres with hmem | hmem
    · exact hacc res hmem
    · have : res = (convert_pdf_async env now db x.uri).1 := by simpa using hmem
      subst this
      exact convert_pdf_async_error env now db x.uri

/-- The pending-conversion list is sorted oldest-processed-first. -/
theorem get_pdfs_for_conversion_sorted (db : List Record) :
    List.Sorted (fun a b : Record => a.processedAt ≤ b.processedAt)
      (get_pdfs_for_conversion db) := by
  unfold get_pdfs_for_conversion
  letI : IsTotal Record (fun a b : Record => a.processedAt ≤ b.processedAt) :=
    ⟨fun a b => Nat.le_total _ _⟩
  letI : IsTrans Record (fun a b : Record => a.processedAt ≤ b.processedAt) :=
    ⟨fun _ _ _ hab hbc => Nat.le_trans hab hbc⟩
  exact List.sorted_insertionSort _ _

/-- C6: `process_conversion_queue` is total (the embedding returns a value
for every store and every engine oracle) and returns exactly one outcome
per pending record, in oldest-processed-first order; a failing record's
outcome carries its error message, and the remaining records still get
their outcomes (the uri list below covers the whole pending list no matter
which oracles fail). -/
theorem C6_theorem (env : ConvEnv) (now : Nat) (db : List Record) :
    (process_conversion_queue env now db).1.map (fun res => res.uri) =
      (get_pdfs_for_conversion db).map Record.uri ∧
    List.Sorted (fun a b : Record => a.processedAt ≤ b.processedAt)
      (get_pdfs_for_conversion db) ∧
    ∀ res ∈ (process_conversion_queue env now db).1,
      res.success = false → res.errorMsg.isSome = true := by
  refine ⟨?_, get_pdfs_for_conversion_sorted db, ?_⟩
  · unfold process_conversion_queue
    rw [conversion_foldl_uris]
    simp
  · unfold process_conversion_queue
    exact conversion_foldl_error env now _ [] db (by simp)

/-- C6 (witness): draining the two-row fixture store with an
always-failing engine yields one failure outcome per pending row, oldest
first. -/
theorem C6_witness :
    resC6 ∈ (process_conversion_queue envConvFail 0 dbC6).1 ∧
    resC6.success = false ∧
    resC6.errorMsg.isSome = true ∧
    (process_conversion_queue envConvFail 0 dbC6).1.map (fun res => res.uri) =
      ["u", "v"] :=
  ⟨by decide, by decide,
   (C6_theorem envConvFail 0 dbC6).2.2 resC6 (by decide) (by decide),
   ((C6_theorem envConvFail 0 dbC6).1).trans (by decide)⟩

/-- Every model's context limit is at least the default 8000. -/
theorem get_context_limit_ge (model : String) : 8000 ≤ get_context_limit model := by
  unfold get_context_limit
  split_ifs <;> norm_num

/-- The binary-search loop never returns a prefix whose estimate exceeds
the budget once its running best is within it, whatever the external
tokenizer. -/
theorem truncLoop_le (enc : Option (String → Nat)) (model : String)
    (text : List Char) (maxTokens : Nat) (left right : Nat) (best : List Char)
    (hb : estimate_tokens enc ⟨best⟩ model ≤ maxTokens) :
    estimate_tokens enc ⟨truncLoop enc model text maxTokens left right best⟩
      model ≤ maxTokens := by
  induction left, right, best using truncLoop.induct enc model text maxTokens with
  | case1 left right best hlt mid candidate hfit ih =>
    rw [truncLoop]
    simp only [hlt, if_true, hfit, if_pos]
    exact ih hfit
  | case2 left right best hlt mid candidate hnofit ih =>
    rw [truncLoop]
    simp only [hlt, if_true, hnofit, if_neg, if_false]
    exact ih hb
  | case3 left right best h =>
    rw [truncLoop]
    simp only [h, if_false]
    exact hb

/-- Under the fallback estimator, `truncate_text` output is within the
reserved token budget. -/
theorem truncate_text_le (text : String) (model : String) (reserve : Nat) :
    estimate_tokens none (truncate_text none text model reserve) model ≤
      get_context_limit model - reserve := by
  unfold truncate_text
  dsimp only
  split_ifs with h
  · exact h
  · apply truncLoop_le
    show (text.data.take ((get_context_limit model - reserve) * 4)).length / 4 ≤
      get_context_limit model - reserve
    have := List.length_take ((get_context_limit model - reserve) * 4) text.data
    omega

/-- Under the fallback estimator, every chunk returned by
`chunk_text_intelligently` re-estimates within the model's token budget. -/
theorem chunk_text_intelligently_le (text model : String) :
    ∀ c ∈ chunk_text_intelligently none text model,
      estimate_tokens none c model ≤ get_context_limit model := by
  intro c hc
  unfold chunk_text_intelligently at hc
  obtain ⟨piece, _, hval⟩ := List.mem_map.mp hc
  by_cases h : estimate_tokens none (⟨piece⟩ : String) model ≤
      get_context_limit model - 1000
  · rw [if_pos h] at hval
    subst hval
    exact Nat.le_trans h (Nat.sub_le _ _)
  · rw [if_neg h] at hval
    subst hval
    exact Nat.le_trans (truncate_text_le ⟨piece⟩ model 1000) (Nat.sub_le _ _)

/-- A nonempty list yields at least one chunk. -/
theorem chunksBy_length_pos {α : Type} (n : Nat) (l : List α) (hl : l ≠ []) :
    1 ≤ (chunksBy n l).length := by
  cases l with
  | nil => exact absurd rfl hl
  | cons x xs =>
    rw [chunksBy]
    split_ifs <;> simp

/-- A list longer than the positive chunk size yields at least two
chunks. -/
theorem chunksBy_length_ge_two {α : Type} (n : Nat) (l : List α) (hn : 0 < n)
    (hl : n < l.length) : 2 ≤ (chunksBy n l).length := by
  cases l with
  | nil => simp at hl
  | cons x xs =>
    rw [chunksBy]
    rw [if_neg (by omega)]
    simp only [List.length_cons] at hl
    have hdrop : (x :: xs).drop n ≠ [] := by
      intro hd
      have hlen := congrArg List.length hd
      simp only [List.length_drop, List.length_cons, List.length_nil] at hlen
      omega
    have := chunksBy_length_pos n ((x :: xs).drop n) hdrop
    simp only [List.length_cons]
    omega

/-- A nonempty list within the chunk size comes back as a single chunk. -/
theorem chunksBy_eq_single {α : Type} (n : Nat) (l : List α) (hl : l ≠ [])
    (hle : l.length ≤ n) : chunksBy n l = [l] := by
  cases l with
  | nil => exact absurd rfl hl
  | cons x xs =>
    rw [chunksBy]
    by_cases hn : n = 0
    · rw [if_pos hn]
    · rw [if_neg hn, List.take_of_length_le hle, List.drop_eq_nil_of_le hle]
      rw [chunksBy]

/-- The fallback token estimate, as an equation usable for rewriting. -/
theorem estimate_tokens_none_eq (t m : String) :
    estimate_tokens none t m = t.data.length / 4 := rfl

/-- The dense-tokenizer estimate, as an equation usable for rewriting. -/
theorem estimate_tokens_dense_eq (t m : String) :
    estimate_tokens denseEnc t m = t.data.length := rfl

/-- Whatever the external tokenizer, a text longer than the character
budget is split into at least two chunks. -/
theorem chunk_text_intelligently_two (enc : Option (String → Nat))
    (text model : String)
    (h : (get_context_limit model - 1000) * 4 < text.data.length) :
    2 ≤ (chunk_text_intelligently enc text model).length := by
  unfold chunk_text_intelligently split_text_model
  rw [List.length_map]
  apply chunksBy_length_ge_two
  · have := get_context_limit_ge model
    omega
  · exact h

/-- C9 (counterexample): with the external tokenizer at one token per
character — the density the real tiktoken encoder reaches on dense
scripts — the 8002-character text estimates above the default 8000-token
context limit, yet strategy "chunk" returns exactly ONE chunk: the
splitter works in characters ((limit-1000)*4 = 28000 per chunk), so the
whole text fits one chunk and the validation loop merely truncates it.
The claimed two-chunk guarantee fails. -/
theorem C9_counterexample :
    get_context_limit "m" < estimate_tokens denseEnc denseTextC9 "m" ∧
    summarize_and_chunk denseEnc denseTextC9 "m" "chunk" =
      Except.ok (chunk_text_intelligently denseEnc denseTextC9 "m") ∧
    (chunk_text_intelligently denseEnc denseTextC9 "m").length = 1 := by
  have hdata : denseTextC9.data = List.replicate 8002 'a' := rfl
  have hlen : denseTextC9.data.length = 8002 := by
    rw [hdata, List.length_replicate]
  have hlim : get_context_limit "m" = 8000 := by decide
  refine ⟨?_, by rfl, ?_⟩
  · rw [estimate_tokens_dense_eq, hlen, hlim]
    norm_num
  · have hne : denseTextC9.data ≠ [] := by
      intro hnil
      rw [hnil] at hlen
      simp at hlen
    have hle : denseTextC9.data.length ≤ (get_context_limit "m" - 1000) * 4 := by
      rw [hlen, hlim]
      norm_num
    unfold chunk_text_intelligently split_text_model
    rw [List.length_map,
      chunksBy_eq_single ((get_context_limit "m" - 1000) * 4) denseTextC9.data hne hle]
    rfl

/-- C9 (amended): the two-chunk guarantee holds in terms of the character
budget, not the token estimate: whatever the external tokenizer, a text
longer than (limit-1000)*4 characters yields at least two chunks; and
under the source's own fallback estimator (`len(text) // 4`, the except
branch when tiktoken is unavailable) the original property holds as
claimed — a text estimated over the model's context limit yields at least
two chunks, each re-estimating within the token budget.  Under the real
tokenizer a dense-token text below the character budget yields a single
truncated chunk (see the counterexample). -/
theorem C9_theorem (text model : String) :
    (∀ enc, (get_context_limit model - 1000) * 4 < text.data.length →
      2 ≤ (chunk_text_intelligently enc text model).length) ∧
    (get_context_limit model < estimate_tokens none text model →
      summarize_and_chunk none text model "chunk" =
        Except.ok (chunk_text_intelligently none text model) ∧
      2 ≤ (chunk_text_intelligently none text model).length ∧
      ∀ c ∈ chunk_text_intelligently none text model,
        estimate_tokens none c model ≤ get_context_limit model) := by
  refine ⟨fun enc h => chunk_text_intelligently_two enc text model h, fun h => ?_⟩
  refine ⟨by rfl, ?_, chunk_text_intelligently_le text model⟩
  apply chunk_text_intelligently_two
  have hlim := get_context_limit_ge model
  rw [estimate_tokens_none_eq] at h
  omega

/-- C9 (witness): the 32004-character text exceeds the 28000-character
budget of the default 8000-token limit (two chunks under the dense
tokenizer), and exceeds the limit under the fallback estimator (two
chunks, the original property). -/
theorem C9_witness :
    ((get_context_limit "m" - 1000) * 4 < bigTextC9.data.length ∧
      2 ≤ (chunk_text_intelligently denseEnc bigTextC9 "m").length) ∧
    (get_context_limit "m" < estimate_tokens none bigTextC9 "m" ∧
      2 ≤ (chunk_text_intelligently none bigTextC9 "m").length) := by
  have hdata : bigTextC9.data = List.replicate 32004 'a' := rfl
  have hlen : bigTextC9.data.length = 32004 := by
    rw [hdata, List.length_replicate]
  have hlim : get_context_limit "m" = 8000 := by decide
  have hchars : (get_context_limit "m" - 1000) * 4 < bigTextC9.data.length := by
    rw [hlen, hlim]
    norm_num
  have htok : get_context_limit "m" < estimate_tokens none bigTextC9 "m" := by
    rw [estimate_tokens_none_eq, hlen, hlim]
    norm_num
  exact ⟨⟨hchars, (C9_theorem bigTextC9 "m").1 denseEnc hchars⟩,
    ⟨htok, ((C9_theorem bigTextC9 "m").2 htok).2.1⟩⟩

end SciPhi
